import Mathlib

/-!
Verification of the concurrent probe-and-fetch pipeline of
`mwmuni/go_async_web_data` (`main.go`) against its design specification.

The Go program is shallowly embedded: pure computations become Lean
functions, the network is an explicit environment (oracle) passed to the
embedded functions, the unbounded redirect loop is given explicit fuel and
returns `none` when the fuel runs out (modelling divergence), and
`go`routine fan-in over a channel is modelled by an arrival list that is a
permutation of the per-host outcomes.  Go's `float64` fields (`PacketLoss`,
`BodySize`) are modelled as `ℚ`: every operation the program performs on
them (zero literals, `float64(n)/1024/1024` with `n` far below `2^53`, and
comparisons) is exact in IEEE double precision, so the rational model is
faithful.  Go byte strings are modelled as Lean strings; all string
literals the program compares against are ASCII, where byte indexing and
character indexing coincide.  `time.Duration` (an `int64` nanosecond count)
is modelled as `Int`; Go `int` values that are always small and nonnegative
(status codes, body lengths, packet counts) are modelled as `Nat`.
-/

/-- `Website` record from `main.go` lines 17-20 (`name`/`url` pair loaded
from the configuration file). -/
structure Website where
  Name : String
  URL : String
deriving DecidableEq, Repr, Inhabited

/-- `PingResult` from `main.go` lines 48-56.  `Error` is `Option String`:
`none` models a nil Go `error`. `AvgRtt` is a `time.Duration` (`Int`
nanoseconds); `PacketLoss` is a `float64` modelled as `ℚ`. -/
structure PingResult where
  URL : String
  Domain : String
  PacketsSent : Nat
  PacketsRecv : Nat
  PacketLoss : ℚ
  AvgRtt : Int
  Error : Option String
deriving DecidableEq, Repr, Inhabited

/-- `FetchResult` from `main.go` lines 59-66.  `BodySize` is the `float64`
megabyte count, modelled as `ℚ` (exact for all realistic body lengths). -/
structure FetchResult where
  URL : String
  StatusCode : Nat
  BodyLength : Nat
  BodySize : ℚ
  Error : Option String
  Redirects : List String
deriving DecidableEq, Repr, Inhabited

/-! ## Domain stripping (`pingUrl`, `main.go` lines 380-393) -/

/-- Stage one of hostname extraction, `main.go` lines 381-386: strip a
literal `https://` or `http://` scheme, but only when the URL is strictly
longer than the scheme (`len(url) > 8`, `len(url) > 7`). -/
def hostAfterScheme (url : String) : String :=
  if 8 < url.length ∧ url.take 8 = "https://" then url.drop 8
  else if 7 < url.length ∧ url.take 7 = "http://" then url.drop 7
  else url

/-- Hostname extraction from `pingUrl`, `main.go` lines 381-391: strip the
scheme, then strip a leading `www.` when the remainder is strictly longer
than `www.` (`len(hostname) > 4`). -/
def extractHostname (url : String) : String :=
  let hostname := hostAfterScheme url
  if 4 < hostname.length ∧ hostname.take 4 = "www." then hostname.drop 4
  else hostname

/-- Domain derivation as worded by the specification (§4.1 step 1 and §8),
for refinement comparison with `extractHostname`: strip a literal
`https://` or `http://` prefix when present, then strip a literal `www.`
prefix when present.  (The code additionally requires the input to be
strictly longer than the stripped literal.) -/
def specDomain (url : String) : String :=
  let h :=
    if url.take 8 = "https://" then url.drop 8
    else if url.take 7 = "http://" then url.drop 7
    else url
  if h.take 4 = "www." then h.drop 4 else h

/-! ## The ping unit (`pingUrl`, `main.go` lines 375-422) -/

/-- Statistics returned by `pinger.Statistics()` (pro-bing library),
restricted to the four fields the program reads. -/
structure PingStats where
  PacketsSent : Nat
  PacketsRecv : Nat
  PacketLoss : ℚ
  AvgRtt : Int
deriving DecidableEq, Repr, Inhabited

/-- Oracle for the probing library: for a given hostname,
`probing.NewPinger` may fail, `pinger.Run` (with `Count = 3`,
`Timeout = 5s`, privileged mode) may fail, and otherwise `Statistics()`
yields the run's stats. -/
structure PingEnv where
  newPingerErr : String → Option String
  runErr : String → Option String
  stats : String → PingStats

/-- The ping unit `pingUrl` (`main.go` lines 375-422) as a total function:
it always produces exactly one `PingResult` (the Go function sends exactly
one value on its channel on every control path). -/
def pingUrl (env : PingEnv) (url : String) : PingResult :=
  let hostname := extractHostname url
  let result : PingResult :=
    { URL := url, Domain := hostname, PacketsSent := 0, PacketsRecv := 0,
      PacketLoss := 0, AvgRtt := 0, Error := none }
  match env.newPingerErr hostname with
  | some e => { result with Error := some e }
  | none =>
    match env.runErr hostname with
    | some e => { result with Error := some e }
    | none =>
      let s := env.stats hostname
      { result with
        PacketsSent := s.PacketsSent
        PacketsRecv := s.PacketsRecv
        PacketLoss := s.PacketLoss
        AvgRtt := s.AvgRtt }

/-! ## The fetch unit (`fetchData`, `main.go` lines 424-462) -/

deriving instance DecidableEq for Except

/-- An HTTP response as the program observes it: a status code, the
`Location` header (`none` models an absent header; `resp.Header.Get`
returns the empty string in that case), and the outcome of reading the
body to completion (`io.ReadAll` may fail). -/
structure HttpResponse where
  StatusCode : Nat
  Location : Option String
  Body : Except String String
deriving DecidableEq, Repr, Inhabited

/-- `resp.Header.Get("Location")`: the header value, or `""` when the
header is absent. -/
def headerGet (loc : Option String) : String := loc.getD ""

/-- Oracle for `http.Get`: each URL deterministically yields either a
transport error or a response. -/
structure FetchEnv where
  get : String → Except String HttpResponse

/-- The redirect loop of `fetchData` (`main.go` lines 437-445) plus the
body read (lines 447-459), instrumented with resource accounting.
`opened` counts HTTP response bodies opened so far (ids `0, 1, ...`); the
returned list holds the ids of the bodies that are closed by the time the
function returns.  The `defer resp.Body.Close()` on line 447 is registered
only after the loop exits, and its receiver is the final response, so only
the body current at that point (id `opened - 1`) is ever closed; the early
`return` inside the loop (lines 441-443) closes nothing.  Fuel bounds the
number of loop iterations; `none` models divergence (the source loop has
no hop bound). -/
def fetchLoop (env : FetchEnv) :
    Nat → FetchResult → HttpResponse → Nat → Option (FetchResult × Nat × List Nat)
  | 0, _, _, _ => none
  | fuel+1, result, resp, opened =>
    if resp.StatusCode = 301 ∨ resp.StatusCode = 302 then
      let loc := headerGet resp.Location
      let result1 := { result with Redirects := result.Redirects ++ [loc] }
      match env.get loc with
      | .error e => some ({ result1 with Error := some e }, opened, [])
      | .ok resp2 => fetchLoop env fuel result1 resp2 (opened + 1)
    else
      match resp.Body with
      | .error e => some ({ result with Error := some e }, opened, [opened - 1])
      | .ok body =>
        some ({ result with
                StatusCode := resp.StatusCode
                BodyLength := body.length
                BodySize := (body.length : ℚ) / 1024 / 1024 }, opened, [opened - 1])

/-- The fetch unit `fetchData` (`main.go` lines 424-462) with resource
trace: result, number of bodies opened, ids of bodies closed. -/
def fetchDataT (env : FetchEnv) (fuel : Nat) (url : String) :
    Option (FetchResult × Nat × List Nat) :=
  let result : FetchResult :=
    { URL := url, StatusCode := 0, BodyLength := 0, BodySize := 0,
      Error := none, Redirects := [] }
  match env.get url with
  | .error e => some ({ result with Error := some e }, 0, [])
  | .ok resp => fetchLoop env fuel result resp 1

/-- The fetch unit's observable outcome (the `FetchResult` sent on the
channel); `none` models a diverging unit. -/
def fetchData (env : FetchEnv) (fuel : Nat) (url : String) : Option FetchResult :=
  (fetchDataT env fuel url).map (·.1)

/-- Reference chain of `Location` values followed from a response onwards
(used to state what `Redirects` accumulates): while the status is 301/302,
the `Location` header value is recorded, stopping after a value whose GET
fails. -/
def locsFrom (env : FetchEnv) : Nat → HttpResponse → List String
  | 0, _ => []
  | fuel+1, resp =>
    if resp.StatusCode = 301 ∨ resp.StatusCode = 302 then
      let loc := headerGet resp.Location
      match env.get loc with
      | .error _ => [loc]
      | .ok resp2 => loc :: locsFrom env fuel resp2
    else []

/-- Reference chain of `Location` values followed for an initial URL. -/
def locsFromUrl (env : FetchEnv) (fuel : Nat) (url : String) : List String :=
  match env.get url with
  | .error _ => []
  | .ok resp => locsFrom env fuel resp

/-! ## The collector (`main.go` lines 137-141 and 174-178) -/

/-- The fan-in loop `for i := 0; i < n; i++ { r := <-ch; append(out, r) }`:
it takes the first `n` values, in arrival order, from the channel's
arrival stream. -/
def collectLoop (n : Nat) (arrivals : List α) : List α := arrivals.take n

/-! ## The ranking comparators (`main.go` lines 144-154 and 181-191) -/

/-- The `less` closure passed to `sort.Slice` for ping results
(`main.go` lines 144-154): results with a non-nil error sort last; among
the rest, larger `AvgRtt` sorts first. -/
def pingLess (a b : PingResult) : Bool :=
  if a.Error ≠ none then false
  else if b.Error ≠ none then true
  else a.AvgRtt > b.AvgRtt

/-- The `less` closure passed to `sort.Slice` for fetch results
(`main.go` lines 181-191): errors last, then larger `BodySize` first. -/
def fetchLess (a b : FetchResult) : Bool :=
  if a.Error ≠ none then false
  else if b.Error ≠ none then true
  else a.BodySize > b.BodySize

/-- Executable adjacent-sortedness: no adjacent inversion under `less`
(this is `sort.IsSorted`: `!less(x[i+1], x[i])` for every `i`). -/
def adjSortedB (less : α → α → Bool) : List α → Bool
  | x :: y :: l => !less y x && adjSortedB less (y :: l)
  | _ => true

/-- The documented contract of Go's `sort.Slice(x, less)`: the slice is
permuted into an order with no adjacent inversion; stability is not part
of the contract. -/
def sortSliceSpec (less : α → α → Bool) (input output : List α) : Prop :=
  input.Perm output ∧ adjSortedB less output = true

/-! ## `sort.Slice` itself (Go standard library `sort` package, pdqsort)

`main.go` calls `sort.Slice`, whose underlying algorithm (Go ≥ 1.19,
`sort/zsortfunc.go`) is pattern-defeating quicksort.  It is embedded here
to settle the stability question: the insertion-sort path (length ≤ 12) is
stable, but the partition path is not.  Loops are given explicit fuel,
always instantiated generously at the call sites; indices are `Nat`
(no reachable call underflows). -/

/-- Indexed read of the slice (indices in the embedded sort are always in
bounds on reachable calls). -/
def aget [Inhabited α] (arr : List α) (i : Nat) : α := arr.getD i default

/-- `data.Swap(i, j)`: exchange positions `i` and `j` of the slice. -/
def aswap (arr : List α) (i j : Nat) : List α :=
  match arr.get? i, arr.get? j with
  | some x, some y => (arr.set i y).set j x
  | _, _ => arr

/-- Inner loop of `insertionSort`: `for j := i; j > a && less(j, j-1); j--
{ swap(j, j-1) }`. -/
def insertionInner [Inhabited α] (less : α → α → Bool) (a : Nat) :
    Nat → List α → List α
  | 0, arr => arr
  | j+1, arr =>
    if a < j + 1 ∧ less (aget arr (j+1)) (aget arr j) then
      insertionInner less a j (aswap arr (j+1) j)
    else arr

/-- Outer loop of `insertionSort`: `for i := a + 1; i < b; i++`. -/
def insertionOuter [Inhabited α] (less : α → α → Bool) (a b : Nat) :
    Nat → Nat → List α → List α
  | _, 0, arr => arr
  | i, fuel+1, arr =>
    if i < b then insertionOuter less a b (i+1) fuel (insertionInner less a i arr)
    else arr

/-- `insertionSort(data, a, b)` from `sort/zsortfunc.go`. -/
def insertionSortRange [Inhabited α] (less : α → α → Bool) (a b : Nat)
    (arr : List α) : List α :=
  insertionOuter less a b (a+1) (b - a) arr

/-- `siftDown(data, root, hi, first)` from `sort/zsortfunc.go`. -/
def siftDown [Inhabited α] (less : α → α → Bool) (first hi : Nat) :
    Nat → Nat → List α → List α
  | _, 0, arr => arr
  | root, fuel+1, arr =>
    let child := 2 * root + 1
    if child ≥ hi then arr
    else
      let child :=
        if child + 1 < hi ∧ less (aget arr (first+child)) (aget arr (first+child+1))
        then child + 1 else child
      if ¬ less (aget arr (first+root)) (aget arr (first+child)) then arr
      else siftDown less first hi child fuel (aswap arr (first+root) (first+child))

/-- Heap construction phase of `heapSort`: `for i := (hi-1)/2; i >= 0; i--`;
the counter argument is `i + 1`. -/
def heapBuild [Inhabited α] (less : α → α → Bool) (first hi : Nat) :
    Nat → List α → List α
  | 0, arr => arr
  | i+1, arr => heapBuild less first hi i (siftDown less first hi i (hi+1) arr)

/-- Pop phase of `heapSort`: `for i := hi - 1; i >= 0; i-- { swap(first,
first+i); siftDown(data, 0, i, first) }`; the counter argument is `i + 1`. -/
def heapPop [Inhabited α] (less : α → α → Bool) (first : Nat) :
    Nat → List α → List α
  | 0, arr => arr
  | i+1, arr => heapPop less first i (siftDown less first i 0 (i+1) (aswap arr first (first+i)))

/-- `heapSort(data, a, b)` from `sort/zsortfunc.go`. -/
def heapSortRange [Inhabited α] (less : α → α → Bool) (a b : Nat)
    (arr : List α) : List α :=
  let hi := b - a
  heapPop less a hi (heapBuild less a hi ((hi - 1) / 2 + 1) arr)

/-- `reverseRange(data, a, b)`: `i, j := a, b-1; for i < j { swap(i, j);
i++; j-- }`. -/
def reverseRangeAux (i j : Nat) : Nat → List α → List α
  | 0, arr => arr
  | fuel+1, arr =>
    if i < j then reverseRangeAux (i+1) (j-1) fuel (aswap arr i j) else arr

/-- `reverseRange(data, a, b)` from `sort/zsortfunc.go`. -/
def reverseRange (a b : Nat) (arr : List α) : List α :=
  reverseRangeAux a (b - 1) b arr

/-- `order2(data, a, b, &swaps)`: returns the two indices in order,
incrementing the swap counter on an inversion. -/
def order2 [Inhabited α] (less : α → α → Bool) (arr : List α)
    (a b swaps : Nat) : Nat × Nat × Nat :=
  if less (aget arr b) (aget arr a) then (b, a, swaps + 1) else (a, b, swaps)

/-- `median(data, a, b, c, &swaps)`: index of the median of three. -/
def median3 [Inhabited α] (less : α → α → Bool) (arr : List α)
    (a b c swaps : Nat) : Nat × Nat :=
  let (a, b, swaps) := order2 less arr a b swaps
  let (b, _, swaps) := order2 less arr b c swaps
  let (_, b, swaps) := order2 less arr a b swaps
  (b, swaps)

/-- `medianAdjacent(data, a, &swaps)`: median of `a-1, a, a+1`. -/
def medianAdjacent [Inhabited α] (less : α → α → Bool) (arr : List α)
    (a swaps : Nat) : Nat × Nat :=
  median3 less arr (a - 1) a (a + 1) swaps

/-- The `sortedHint` values of `sort/zsortfunc.go`. -/
inductive SortedHint where
  | unknown
  | increasing
  | decreasing
deriving DecidableEq, Repr

/-- `choosePivot(data, a, b)` from `sort/zsortfunc.go` (ninther for
length ≥ 50, median of three for length ≥ 8, fixed middle otherwise);
`swaps = 0` hints an increasing run, `swaps = 12` a decreasing one. -/
def choosePivot [Inhabited α] (less : α → α → Bool) (arr : List α)
    (a b : Nat) : Nat × SortedHint :=
  let l := b - a
  let i := a + l / 4 * 1
  let j := a + l / 4 * 2
  let k := a + l / 4 * 3
  if 8 ≤ l then
    let (i, j, k, swaps) :=
      if 50 ≤ l then
        let (i, s1) := medianAdjacent less arr i 0
        let (j, s2) := medianAdjacent less arr j s1
        let (k, s3) := medianAdjacent less arr k s2
        (i, j, k, s3)
      else (i, j, k, 0)
    let (j, swaps) := median3 less arr i j k swaps
    if swaps = 0 then (j, SortedHint.increasing)
    else if swaps = 12 then (j, SortedHint.decreasing)
    else (j, SortedHint.unknown)
  else (j, SortedHint.increasing)

/-- Scan of `partialInsertionSort`: advance `i` while `i < b` and
`!less(i, i-1)`. -/
def scanSorted [Inhabited α] (less : α → α → Bool) (arr : List α) (b : Nat) :
    Nat → Nat → Nat
  | i, 0 => i
  | i, fuel+1 =>
    if i < b ∧ ¬ less (aget arr i) (aget arr (i-1)) then
      scanSorted less arr b (i+1) fuel
    else i

/-- Left shift of `partialInsertionSort`: `for j := i - 1; j >= 1; j--
{ if !less(j, j-1) break; swap(j, j-1) }`; the first argument is `j`. -/
def shiftTail [Inhabited α] (less : α → α → Bool) :
    Nat → List α → List α
  | 0, arr => arr
  | j+1, arr =>
    if ¬ less (aget arr (j+1)) (aget arr j) then arr
    else shiftTail less j (aswap arr (j+1) j)

/-- Right shift of `partialInsertionSort`: `for j := i + 1; j < b; j++
{ if !less(j, j-1) break; swap(j, j-1) }`. -/
def shiftHead [Inhabited α] (less : α → α → Bool) (b : Nat) :
    Nat → Nat → List α → List α
  | _, 0, arr => arr
  | j, fuel+1, arr =>
    if j < b ∧ less (aget arr j) (aget arr (j-1)) then
      shiftHead less b (j+1) fuel (aswap arr j (j-1))
    else arr

/-- The `maxSteps = 5` loop of `partialInsertionSort(data, a, b)`; on
slices shorter than `shortestShifting = 50` it returns `false` without
moving anything once an out-of-order pair is found. -/
def partInsertionLoop [Inhabited α] (less : α → α → Bool) (a b : Nat) :
    Nat → Nat → List α → Bool × List α
  | 0, _, arr => (false, arr)
  | steps+1, i, arr =>
    let i := scanSorted less arr b i b
    if i = b then (true, arr)
    else if b - a < 50 then (false, arr)
    else
      let arr := aswap arr i (i-1)
      let arr := if 2 ≤ i - a then shiftTail less (i-1) arr else arr
      let arr := if 2 ≤ b - i then shiftHead less b (i+1) (b - i) arr else arr
      partInsertionLoop less a b steps i arr

/-- `partialInsertionSort(data, a, b)` from `sort/zsortfunc.go`: attempts
to finish sorting assuming at most five out-of-order adjacent pairs. -/
def partInsertionSort [Inhabited α] (less : α → α → Bool) (a b : Nat)
    (arr : List α) : Bool × List α :=
  partInsertionLoop less a b 5 (a+1) arr

/-- One step of the `xorshift` generator used by `breakPatterns`
(`r ^= r << 13; r ^= r >> 7; r ^= r << 17` on `uint64`). -/
def xorshiftNext (r : Nat) : Nat :=
  let r := (r ^^^ (r <<< 13)) % 2 ^ 64
  let r := (r ^^^ (r >>> 7)) % 2 ^ 64
  (r ^^^ (r <<< 17)) % 2 ^ 64

/-- `bits.Len(uint(n))`: position of the highest set bit. -/
def bitsLen (n : Nat) : Nat := if n = 0 then 0 else n.log2 + 1

/-- `breakPatterns(data, a, b)` from `sort/zsortfunc.go`: swaps three
elements around the midpoint with pseudo-random ones (xorshift seeded with
the length, modulus the next power of two). -/
def breakPatterns (a b : Nat) (arr : List α) : List α :=
  let length := b - a
  if 8 ≤ length then
    let r1 := xorshiftNext length
    let r2 := xorshiftNext r1
    let r3 := xorshiftNext r2
    let modulus := 2 ^ bitsLen length
    let idx := a + length / 4 * 2 - 1
    let step := fun (arr : List α) (i rnd : Nat) =>
      let other := rnd &&& (modulus - 1)
      let other := if other ≥ length then other - length else other
      aswap arr (idx - 1 + i) (a + other)
    step (step (step arr 0 r1) 1 r2) 2 r3
  else arr

/-- Scan inside `partition`: advance `i` while `i <= j && less(i, a)`. -/
def scanLt [Inhabited α] (less : α → α → Bool) (arr : List α) (a j : Nat) :
    Nat → Nat → Nat
  | i, 0 => i
  | i, fuel+1 =>
    if i ≤ j ∧ less (aget arr i) (aget arr a) then scanLt less arr a j (i+1) fuel
    else i

/-- Scan inside `partition`: decrease `j` while `i <= j && !less(j, a)`. -/
def scanGe [Inhabited α] (less : α → α → Bool) (arr : List α) (a i : Nat) :
    Nat → Nat → Nat
  | j, 0 => j
  | j, fuel+1 =>
    if i ≤ j ∧ ¬ less (aget arr j) (aget arr a) then scanGe less arr a i (j-1) fuel
    else j

/-- The inner swap loop of `partition` (after the first crossing swap):
scan, and while `i <= j`, `swap(i, j); i++; j--`; yields the final `j`. -/
def partitionLoop [Inhabited α] (less : α → α → Bool) (a : Nat) :
    Nat → Nat → Nat → List α → Nat × List α
  | _, j, 0, arr => (j, arr)
  | i, j, fuel+1, arr =>
    let i := scanLt less arr a j i (j + 2)
    let j := scanGe less arr a i j (j + 1)
    if i > j then (j, arr)
    else partitionLoop less a (i+1) (j-1) fuel (aswap arr i j)

/-- `partition(data, a, b, pivot)` from `sort/zsortfunc.go`: Hoare-style
partition around the pivot (moved to `a` first, placed at the returned
index last); also reports whether the range was already partitioned. -/
def partitionRange [Inhabited α] (less : α → α → Bool) (a b pivot : Nat)
    (arr : List α) : Nat × Bool × List α :=
  let arr := aswap arr a pivot
  let i := scanLt less arr a (b-1) (a+1) b
  let j := scanGe less arr a i (b-1) b
  if i > j then
    (j, true, aswap arr j a)
  else
    let arr := aswap arr i j
    let (j2, arr) := partitionLoop less a (i+1) (j-1) b arr
    (j2, false, aswap arr j2 a)

/-- Scan inside `partitionEqual`: advance `i` while `i <= j && !less(a, i)`. -/
def scanEqI [Inhabited α] (less : α → α → Bool) (arr : List α) (a j : Nat) :
    Nat → Nat → Nat
  | i, 0 => i
  | i, fuel+1 =>
    if i ≤ j ∧ ¬ less (aget arr a) (aget arr i) then scanEqI less arr a j (i+1) fuel
    else i

/-- Scan inside `partitionEqual`: decrease `j` while `i <= j && less(a, j)`. -/
def scanEqJ [Inhabited α] (less : α → α → Bool) (arr : List α) (a i : Nat) :
    Nat → Nat → Nat
  | j, 0 => j
  | j, fuel+1 =>
    if i ≤ j ∧ less (aget arr a) (aget arr j) then scanEqJ less arr a i (j-1) fuel
    else j

/-- The swap loop of `partitionEqual`; yields the final `i`. -/
def partitionEqualLoop [Inhabited α] (less : α → α → Bool) (a : Nat) :
    Nat → Nat → Nat → List α → Nat × List α
  | i, _, 0, arr => (i, arr)
  | i, j, fuel+1, arr =>
    let i := scanEqI less arr a j i (j + 2)
    let j := scanEqJ less arr a i j (j + 1)
    if i > j then (i, arr)
    else partitionEqualLoop less a (i+1) (j-1) fuel (aswap arr i j)

/-- `partitionEqual(data, a, b, pivot)` from `sort/zsortfunc.go`: groups
elements equal to the pivot at the front, returning the first index of the
strictly-greater suffix. -/
def partitionEqualRange [Inhabited α] (less : α → α → Bool) (a b pivot : Nat)
    (arr : List α) : Nat × List α :=
  let arr := aswap arr a pivot
  partitionEqualLoop less a (a+1) (b-1) b arr

/-- `pdqsort(data, a, b, limit)` from `sort/zsortfunc.go`.  The Go
function's outer `for` loop is modelled as fuel-consuming tail recursion
(keeping the current `wasBalanced`/`wasPartitioned` flags), and each fresh
recursive call restarts with both flags `true`, exactly as the Go locals
are re-initialised. -/
def pdqsortRec [Inhabited α] (less : α → α → Bool) :
    Nat → Nat → Nat → Nat → Bool → Bool → List α → List α
  | 0, _, _, _, _, _, arr => arr
  | fuel+1, a, b, limit, wasBalanced, wasPartitioned, arr =>
    let length := b - a
    if length ≤ 12 then insertionSortRange less a b arr
    else if limit = 0 then heapSortRange less a b arr
    else
      let (arr, limit) :=
        if ¬ wasBalanced then (breakPatterns a b arr, limit - 1) else (arr, limit)
      let (pivot, hint) := choosePivot less arr a b
      let (arr, pivot, hint) :=
        if hint = SortedHint.decreasing then
          (reverseRange a b arr, (b - 1) - (pivot - a), SortedHint.increasing)
        else (arr, pivot, hint)
      let (done, arr) :=
        if wasBalanced ∧ wasPartitioned ∧ hint = SortedHint.increasing then
          partInsertionSort less a b arr
        else (false, arr)
      if done then arr
      else if 0 < a ∧ ¬ less (aget arr (a-1)) (aget arr pivot) then
        let (mid, arr) := partitionEqualRange less a b pivot arr
        pdqsortRec less fuel mid b limit wasBalanced wasPartitioned arr
      else
        let (mid, alreadyPartitioned, arr) := partitionRange less a b pivot arr
        let leftLen := mid - a
        let rightLen := b - mid
        let balanceThreshold := length / 8
        let newBalanced := decide (min leftLen rightLen ≥ balanceThreshold)
        if leftLen < rightLen then
          let arr := pdqsortRec less fuel a mid limit true true arr
          pdqsortRec less fuel (mid+1) b limit newBalanced alreadyPartitioned arr
        else
          let arr := pdqsortRec less fuel (mid+1) b limit true true arr
          pdqsortRec less fuel a mid limit newBalanced alreadyPartitioned arr

/-- `sort.Slice(x, less)` (Go `sort/slice.go`): pdqsort over the whole
slice with depth limit `bits.Len(uint(n))`.  The fuel `2 * n + 64` far
exceeds the number of loop iterations and recursive calls any `n`-element
run can perform at the concrete inputs it is evaluated on. -/
def sortSlice [Inhabited α] (less : α → α → Bool) (l : List α) : List α :=
  let n := l.length
  pdqsortRec less (2 * n + 64) 0 n (bitsLen n) true true l

/-- Convenience: an error-free `PingResult` with a given tag and rtt. -/
def okPing (tag : String) (rtt : Int) : PingResult :=
  { URL := tag, Domain := tag, PacketsSent := 3, PacketsRecv := 3,
    PacketLoss := 0, AvgRtt := rtt, Error := none }

/-! ## Helper lemmas -/

/-- An adjacent-sorted list is pairwise sorted when the relation is
transitive. -/
theorem chain'_to_pairwise {α : Type} {R : α → α → Prop}
    (tr : ∀ a b c, R a b → R b c → R a c) {l : List α}
    (h : l.Chain' R) : l.Pairwise R := by
  haveI : IsTrans α R := ⟨tr⟩
  exact List.chain'_iff_pairwise.mp h

/-- The executable adjacent-sortedness check coincides with `Chain'` of
the non-strict order. -/
theorem adjSortedB_iff_chain' {α : Type} (less : α → α → Bool) :
    ∀ l : List α, adjSortedB less l = true ↔ l.Chain' (fun x y => ¬ less y x) := by
  intro l
  match l with
  | [] => simp [adjSortedB, List.chain'_nil]
  | [x] => simp [adjSortedB, List.chain'_singleton]
  | x :: y :: l =>
    rw [List.chain'_cons, ← adjSortedB_iff_chain' less (y :: l)]
    simp [adjSortedB]

/-- `filterMap` preserves length when the function succeeds on every
element. -/
theorem length_filterMap_of_isSome {α β : Type} (f : α → Option β) :
    ∀ l : List α, (∀ a ∈ l, (f a).isSome) → (l.filterMap f).length = l.length := by
  intro l hl
  induction l with
  | nil => rfl
  | cons a l ih =>
    have ha := hl a (List.mem_cons_self a l)
    rcases hb : f a with _ | b
    · rw [hb] at ha; exact absurd ha (by simp)
    · simp only [List.filterMap_cons, hb, List.length_cons]
      exact congrArg Nat.succ (ih fun x hx => hl x (List.mem_cons_of_mem a hx))

/-- Taking `n` characters of a string no longer than `n` returns the whole
string. -/
theorem string_take_short {s : String} {n : Nat} (h : s.length ≤ n) :
    s.take n = s :=
  String.ext (by
    rw [String.data_take]
    exact List.take_of_length_le (by rw [String.length_data]; exact h))

/-! ## C1: exactly one outcome per host -/

/-- C1.  For every configured host list of length N, the ping phase
collects exactly N `PingResult` values and the fetch phase exactly N
`FetchResult` values.  Each unit sends exactly one result (in the
embedding, `pingUrl` is total and each terminating `fetchData` run is
`some`), the channel delivers the sends in some arrival order (a
permutation), and the collector loop takes exactly `len(urls)` values
(`main.go` lines 137-141 and 174-178). -/
theorem c1_one_outcome_per_host
    (penv : PingEnv) (fenv : FetchEnv) (fuel : Nat) (websites : List Website)
    (pingArrivals : List PingResult) (fetchArrivals : List FetchResult)
    (hping : pingArrivals.Perm (websites.map (fun w => pingUrl penv w.URL)))
    (hterm : ∀ w ∈ websites, (fetchData fenv fuel w.URL).isSome)
    (hfetch : fetchArrivals.Perm
      (websites.filterMap (fun w => fetchData fenv fuel w.URL))) :
    (collectLoop websites.length pingArrivals).length = websites.length ∧
    (collectLoop websites.length fetchArrivals).length = websites.length := by
  constructor
  · have hlen : pingArrivals.length = websites.length := by
      rw [hping.length_eq, List.length_map]
    rw [collectLoop, List.length_take, hlen, Nat.min_self]
  · have hlen : fetchArrivals.length = websites.length := by
      rw [hfetch.length_eq, length_filterMap_of_isSome _ _ hterm]
    rw [collectLoop, List.length_take, hlen, Nat.min_self]

/-- Concrete two-host scenario for C1: one host pings fine, the other's
probe construction fails; one fetch succeeds, the other's GET fails;
results arrive in reversed order. -/
def c1PingEnv : PingEnv :=
  { newPingerErr := fun h => if h = "bad.example" then some "lookup failed" else none
    runErr := fun _ => none
    stats := fun _ => { PacketsSent := 3, PacketsRecv := 3, PacketLoss := 0, AvgRtt := 5000000 } }

/-- Fetch oracle for the C1 witness scenario: one unit fails reading the
body, the other fails on the GET itself (C1 is about counting outcomes
regardless of failures). -/
def c1FetchEnv : FetchEnv :=
  { get := fun u =>
      if u = "https://ok.example" then
        .ok { StatusCode := 200, Location := none, Body := .error "read reset" }
      else .error "connection refused" }

/-- Host list for the C1 witness scenario. -/
def c1Websites : List Website :=
  [{ Name := "Ok", URL := "https://ok.example" },
   { Name := "Bad", URL := "http://bad.example" }]

/-- Witness for C1 at the concrete two-host scenario (arrivals reversed
relative to launch order; one unit of each phase fails). -/
theorem c1_witness :
    (collectLoop c1Websites.length
      (c1Websites.map (fun w => pingUrl c1PingEnv w.URL)).reverse).length = c1Websites.length ∧
    (collectLoop c1Websites.length
      (c1Websites.filterMap (fun w => fetchData c1FetchEnv 1 w.URL)).reverse).length = c1Websites.length :=
  c1_one_outcome_per_host c1PingEnv c1FetchEnv 1 c1Websites _ _
    (by decide) (by decide) (by decide)

/-! ## C2: ranking order -/

/-- The non-strict order induced by the ping comparator (`¬ less b a`) is
transitive (the comparator is a total preorder: errors form one
equivalence class above all error-free results, which compare by rtt). -/
theorem pingNotLess_trans (a b c : PingResult)
    (hab : ¬ pingLess b a) (hbc : ¬ pingLess c b) : ¬ pingLess c a := by
  unfold pingLess at *
  by_cases ha : a.Error = none <;> by_cases hb : b.Error = none <;>
    by_cases hc : c.Error = none <;>
    simp [ha, hb, hc] at * <;> omega

/-- The non-strict order induced by the fetch comparator is transitive. -/
theorem fetchNotLess_trans (a b c : FetchResult)
    (hab : ¬ fetchLess b a) (hbc : ¬ fetchLess c b) : ¬ fetchLess c a := by
  unfold fetchLess at *
  by_cases ha : a.Error = none <;> by_cases hb : b.Error = none <;>
    by_cases hc : c.Error = none <;>
    simp [ha, hb, hc] at *
  · exact le_trans hbc hab

/-- C2.  Any output `sort.Slice` may lawfully produce (a permutation of
the collected results with no adjacent inversion under the comparator,
`main.go` lines 144-154 and 181-191) ranks results as specified: among
error-free ping results a strictly larger `AvgRtt` comes strictly earlier,
among error-free fetch results a strictly larger `BodySize` comes strictly
earlier, and every error-free result comes strictly before every result
with a non-nil error. -/
theorem c2_ranked_order
    (pin pout : List PingResult) (fin0 fout : List FetchResult)
    (hp : sortSliceSpec pingLess pin pout)
    (hf : sortSliceSpec fetchLess fin0 fout) :
    ((∀ i j : Fin pout.length,
        (pout.get i).Error = none → (pout.get j).Error = none →
        (pout.get i).AvgRtt > (pout.get j).AvgRtt → (i : Nat) < j) ∧
     (∀ i j : Fin pout.length,
        (pout.get i).Error = none → (pout.get j).Error ≠ none → (i : Nat) < j)) ∧
    ((∀ i j : Fin fout.length,
        (fout.get i).Error = none → (fout.get j).Error = none →
        (fout.get i).BodySize > (fout.get j).BodySize → (i : Nat) < j) ∧
     (∀ i j : Fin fout.length,
        (fout.get i).Error = none → (fout.get j).Error ≠ none → (i : Nat) < j)) := by
  have hpw : pout.Pairwise (fun x y => ¬ pingLess y x) :=
    chain'_to_pairwise pingNotLess_trans ((adjSortedB_iff_chain' pingLess pout).mp hp.2)
  have hfw : fout.Pairwise (fun x y => ¬ fetchLess y x) :=
    chain'_to_pairwise fetchNotLess_trans ((adjSortedB_iff_chain' fetchLess fout).mp hf.2)
  have hpg := List.pairwise_iff_get.mp hpw
  have hfg := List.pairwise_iff_get.mp hfw
  refine ⟨⟨?_, ?_⟩, ?_, ?_⟩
  · intro i j hi hj hgt
    rcases Nat.lt_trichotomy (i : Nat) (j : Nat) with h | h | h
    · exact h
    · cases Fin.eq_of_val_eq h
      exact absurd hgt (lt_irrefl _)
    · have ht : pingLess (pout.get i) (pout.get j) = true := by
        unfold pingLess
        rw [if_neg (not_not_intro hi), if_neg (not_not_intro hj)]
        exact decide_eq_true hgt
      exact absurd ht (hpg j i (by exact h))
  · intro i j hi hj
    rcases Nat.lt_trichotomy (i : Nat) (j : Nat) with h | h | h
    · exact h
    · cases Fin.eq_of_val_eq h
      exact absurd hi hj
    · have ht : pingLess (pout.get i) (pout.get j) = true := by
        unfold pingLess
        rw [if_neg (not_not_intro hi), if_pos hj]
      exact absurd ht (hpg j i (by exact h))
  · intro i j hi hj hgt
    rcases Nat.lt_trichotomy (i : Nat) (j : Nat) with h | h | h
    · exact h
    · cases Fin.eq_of_val_eq h
      exact absurd hgt (lt_irrefl _)
    · have ht : fetchLess (fout.get i) (fout.get j) = true := by
        unfold fetchLess
        rw [if_neg (not_not_intro hi), if_neg (not_not_intro hj)]
        exact decide_eq_true hgt
      exact absurd ht (hfg j i (by exact h))
  · intro i j hi hj
    rcases Nat.lt_trichotomy (i : Nat) (j : Nat) with h | h | h
    · exact h
    · cases Fin.eq_of_val_eq h
      exact absurd hi hj
    · have ht : fetchLess (fout.get i) (fout.get j) = true := by
        unfold fetchLess
        rw [if_neg (not_not_intro hi), if_pos hj]
      exact absurd ht (hfg j i (by exact h))

/-- A failed ping outcome used in concrete ranking scenarios. -/
def errPing0 : PingResult :=
  { URL := "e", Domain := "e", PacketsSent := 0, PacketsRecv := 0,
    PacketLoss := 0, AvgRtt := 0, Error := some "lookup failed" }

/-- Collection-order ping list for the C2 scenario. -/
def c2PingIn : List PingResult := [errPing0, okPing "a" 7, okPing "b" 3]

/-- Ranked ping list for the C2 scenario. -/
def c2PingOut : List PingResult := [okPing "a" 7, okPing "b" 3, errPing0]

/-- An error-free fetch outcome used in concrete ranking scenarios. -/
def okFetch (tag : String) (size : ℚ) : FetchResult :=
  { URL := tag, StatusCode := 200, BodyLength := 0, BodySize := size,
    Error := none, Redirects := [] }

/-- A failed fetch outcome used in concrete ranking scenarios. -/
def errFetch0 : FetchResult :=
  { URL := "f", StatusCode := 0, BodyLength := 0, BodySize := 0,
    Error := some "connection refused", Redirects := [] }

/-- Collection-order fetch list for the C2 scenario. -/
def c2FetchIn : List FetchResult := [errFetch0, okFetch "g" 2, okFetch "h" 1]

/-- Ranked fetch list for the C2 scenario. -/
def c2FetchOut : List FetchResult := [okFetch "g" 2, okFetch "h" 1, errFetch0]

/-- Witness for C2 at a concrete three-result scenario per phase: the
slower ping precedes the faster one, the larger fetch precedes the smaller
one, and error outcomes land strictly after error-free ones. -/
theorem c2_witness :
    ((0 : Nat) < 1 ∧ (1 : Nat) < 2) ∧ ((0 : Nat) < 1 ∧ (1 : Nat) < 2) := by
  have c := c2_ranked_order c2PingIn c2PingOut c2FetchIn c2FetchOut
    ⟨by decide, by decide⟩ ⟨by decide, by decide⟩
  refine ⟨⟨?_, ?_⟩, ?_, ?_⟩
  · exact c.1.1 ⟨0, by decide⟩ ⟨1, by decide⟩ (by decide) (by decide) (by decide)
  · exact c.1.2 ⟨1, by decide⟩ ⟨2, by decide⟩ (by decide) (by decide)
  · exact c.2.1 ⟨0, by decide⟩ ⟨1, by decide⟩ (by decide) (by decide) (by decide)
  · exact c.2.2 ⟨1, by decide⟩ ⟨2, by decide⟩ (by decide) (by decide)

/-! ## Fetch-loop invariants -/

/-- Error paths of the redirect loop never write the status/body fields:
they stay whatever they were in the accumulator. -/
theorem fetchLoop_error_fields (env : FetchEnv) :
    ∀ (fuel : Nat) (result : FetchResult) (resp : HttpResponse) (opened : Nat)
      (r : FetchResult) (o : Nat) (c : List Nat),
      result.Error = none →
      fetchLoop env fuel result resp opened = some (r, o, c) →
      r.Error ≠ none →
      r.StatusCode = result.StatusCode ∧ r.BodyLength = result.BodyLength ∧
      r.BodySize = result.BodySize := by
  intro fuel
  induction fuel with
  | zero =>
    intro result resp opened r o c _ h
    exact absurd h (by simp [fetchLoop])
  | succ fuel ih =>
    intro result resp opened r o c hres h herr
    by_cases hst : resp.StatusCode = 301 ∨ resp.StatusCode = 302
    · rcases hget : env.get (headerGet resp.Location) with e | resp2
      · simp only [fetchLoop, if_pos hst, hget, Option.some.injEq, Prod.mk.injEq] at h
        obtain ⟨h1, -, -⟩ := h
        cases h1
        exact ⟨rfl, rfl, rfl⟩
      · simp only [fetchLoop, if_pos hst, hget] at h
        have step := ih
          { result with Redirects := result.Redirects ++ [headerGet resp.Location] }
          resp2 (opened + 1) r o c hres h herr
        exact step
    · rcases hbody : resp.Body with e | body
      · simp only [fetchLoop, if_neg hst, hbody, Option.some.injEq, Prod.mk.injEq] at h
        obtain ⟨h1, -, -⟩ := h
        cases h1
        exact ⟨rfl, rfl, rfl⟩
      · simp only [fetchLoop, if_neg hst, hbody, Option.some.injEq, Prod.mk.injEq] at h
        obtain ⟨h1, -, -⟩ := h
        cases h1
        exact absurd hres herr

/-- The redirect loop extends the accumulated `Redirects` with exactly the
chain of `Location` values it follows from the current response. -/
theorem fetchLoop_redirects (env : FetchEnv) :
    ∀ (fuel : Nat) (result : FetchResult) (resp : HttpResponse) (opened : Nat)
      (r : FetchResult) (o : Nat) (c : List Nat),
      fetchLoop env fuel result resp opened = some (r, o, c) →
      r.Redirects = result.Redirects ++ locsFrom env fuel resp := by
  intro fuel
  induction fuel with
  | zero =>
    intro result resp opened r o c h
    exact absurd h (by simp [fetchLoop])
  | succ fuel ih =>
    intro result resp opened r o c h
    by_cases hst : resp.StatusCode = 301 ∨ resp.StatusCode = 302
    · rcases hget : env.get (headerGet resp.Location) with e | resp2
      · simp only [fetchLoop, if_pos hst, hget, Option.some.injEq, Prod.mk.injEq] at h
        obtain ⟨h1, -, -⟩ := h
        cases h1
        simp [locsFrom, if_pos hst, hget]
      · simp only [fetchLoop, if_pos hst, hget] at h
        have step := ih
          { result with Redirects := result.Redirects ++ [headerGet resp.Location] }
          resp2 (opened + 1) r o c h
        rw [step]
        simp [locsFrom, if_pos hst, hget]
    · rcases hbody : resp.Body with e | body
      · simp only [fetchLoop, if_neg hst, hbody, Option.some.injEq, Prod.mk.injEq] at h
        obtain ⟨h1, -, -⟩ := h
        cases h1
        simp [locsFrom, if_neg hst]
      · simp only [fetchLoop, if_neg hst, hbody, Option.some.injEq, Prod.mk.injEq] at h
        obtain ⟨h1, -, -⟩ := h
        cases h1
        simp [locsFrom, if_neg hst]

/-- A loop result with a nil error carries the status of the final,
non-redirect response: never 301 or 302. -/
theorem fetchLoop_final_status (env : FetchEnv) :
    ∀ (fuel : Nat) (result : FetchResult) (resp : HttpResponse) (opened : Nat)
      (r : FetchResult) (o : Nat) (c : List Nat),
      result.Error = none →
      fetchLoop env fuel result resp opened = some (r, o, c) →
      r.Error = none →
      r.StatusCode ≠ 301 ∧ r.StatusCode ≠ 302 := by
  intro fuel
  induction fuel with
  | zero =>
    intro result resp opened r o c _ h
    exact absurd h (by simp [fetchLoop])
  | succ fuel ih =>
    intro result resp opened r o c hres h hok
    by_cases hst : resp.StatusCode = 301 ∨ resp.StatusCode = 302
    · rcases hget : env.get (headerGet resp.Location) with e | resp2
      · simp only [fetchLoop, if_pos hst, hget, Option.some.injEq, Prod.mk.injEq] at h
        obtain ⟨h1, -, -⟩ := h
        cases h1
        exact absurd hok (by simp)
      · simp only [fetchLoop, if_pos hst, hget] at h
        have step := ih
          { result with Redirects := result.Redirects ++ [headerGet resp.Location] }
          resp2 (opened + 1) r o c hres h hok
        exact step
    · rcases hbody : resp.Body with e | body
      · simp only [fetchLoop, if_neg hst, hbody, Option.some.injEq, Prod.mk.injEq] at h
        obtain ⟨h1, -, -⟩ := h
        cases h1
        exact absurd hok (by simp)
      · simp only [fetchLoop, if_neg hst, hbody, Option.some.injEq, Prod.mk.injEq] at h
        obtain ⟨h1, -, -⟩ := h
        cases h1
        exact ⟨fun he => hst (Or.inl he), fun he => hst (Or.inr he)⟩

/-! ## C5: redirect following -/

/-- Oracle for the C5 scenario: a 302, then a 301, then a 200 with a
body. -/
def c5env : FetchEnv :=
  { get := fun u =>
      if u = "http://start.example" then
        .ok { StatusCode := 302, Location := some "http://hop1.example", Body := .ok "r1" }
      else if u = "http://hop1.example" then
        .ok { StatusCode := 301, Location := some "http://hop2.example", Body := .ok "r2" }
      else if u = "http://hop2.example" then
        .ok { StatusCode := 200, Location := none, Body := .ok "final body" }
      else .error "no route" }

/-- C5.  For a 302 → 301 → 200 chain the outcome records the two
`Location` values in order, status 200, no error, and a body size computed
from the final response body alone; and in general a successful outcome
never carries an intermediate 301/302 status (`main.go` lines 436-459). -/
theorem c5_redirect_chain :
    fetchData c5env 9 "http://start.example" = some
      { URL := "http://start.example", StatusCode := 200,
        BodyLength := "final body".length,
        BodySize := ("final body".length : ℚ) / 1024 / 1024,
        Error := none,
        Redirects := ["http://hop1.example", "http://hop2.example"] }
    ∧ ∀ (env : FetchEnv) (fuel : Nat) (url : String) (r : FetchResult),
        fetchData env fuel url = some r → r.Error = none →
        r.StatusCode ≠ 301 ∧ r.StatusCode ≠ 302 := by
  constructor
  · rfl
  · intro env fuel url r h hok
    simp only [fetchData, fetchDataT] at h
    rcases hget : env.get url with e | resp
    · rw [hget] at h
      simp only [Option.map] at h
      cases Option.some.inj h
      exact absurd hok (by simp)
    · rw [hget] at h
      simp only [Option.map] at h
      cases hloop : fetchLoop env fuel
          { URL := url, StatusCode := 0, BodyLength := 0, BodySize := 0,
            Error := none, Redirects := [] } resp 1 with
      | none => rw [hloop] at h; exact absurd h (by simp)
      | some t =>
        obtain ⟨r0, o, c⟩ := t
        rw [hloop] at h
        simp only [Option.map] at h
        cases Option.some.inj h
        exact fetchLoop_final_status env fuel _ resp 1 r o c rfl hloop hok

/-- Witness for C5's general clause at the concrete 302 → 301 → 200
scenario. -/
theorem c5_witness :
    (200 : Nat) ≠ 301 ∧ (200 : Nat) ≠ 302 :=
  c5_redirect_chain.2 c5env 9 "http://start.example"
    { URL := "http://start.example", StatusCode := 200,
      BodyLength := "final body".length,
      BodySize := ("final body".length : ℚ) / 1024 / 1024,
      Error := none,
      Redirects := ["http://hop1.example", "http://hop2.example"] }
    c5_redirect_chain.1 rfl

/-! ## C6: no redirect hop bound -/

/-- C6.  The redirect loop has no maximum hop count: against any server
whose every response is a 301/302, the fetch unit never produces an
outcome, whatever fuel it is given (`main.go` lines 437-445 have no bound
on the chain length). -/
theorem c6_cyclic_redirect_diverges
    (env : FetchEnv)
    (hcyc : ∀ u, ∃ resp, env.get u = .ok resp ∧
      (resp.StatusCode = 301 ∨ resp.StatusCode = 302)) :
    ∀ (fuel : Nat) (url : String), fetchData env fuel url = none := by
  have loop : ∀ (fuel : Nat) (result : FetchResult) (resp : HttpResponse)
      (opened : Nat), (resp.StatusCode = 301 ∨ resp.StatusCode = 302) →
      fetchLoop env fuel result resp opened = none := by
    intro fuel
    induction fuel with
    | zero => intro result resp opened _; rfl
    | succ fuel ih =>
      intro result resp opened hst
      obtain ⟨resp2, hget, hst2⟩ := hcyc (headerGet resp.Location)
      simp only [fetchLoop, if_pos hst, hget]
      exact ih _ resp2 (opened + 1) hst2
  intro fuel url
  obtain ⟨resp, hget, hst⟩ := hcyc url
  simp only [fetchData, fetchDataT, hget, loop fuel _ resp 1 hst, Option.map]

/-- Oracle of an unconditionally redirecting (cyclic) server. -/
def cycEnv : FetchEnv :=
  { get := fun _ =>
      .ok { StatusCode := 302, Location := some "http://loop.example", Body := .ok "" } }

/-- Witness for C6: the cyclic server defeats both a small and a large
fuel bound. -/
theorem c6_witness :
    fetchData cycEnv 5 "http://loop.example" = none ∧
    fetchData cycEnv 1000 "http://loop.example" = none :=
  ⟨c6_cyclic_redirect_diverges cycEnv (fun _ => ⟨_, rfl, Or.inr rfl⟩) 5 _,
   c6_cyclic_redirect_diverges cycEnv (fun _ => ⟨_, rfl, Or.inr rfl⟩) 1000 _⟩

/-! ## C7: errors leave zero-valued measurements -/

/-- C7.  Any outcome carrying a non-nil error has zero-valued measurement
fields: a failed ping reports zero packets/loss/rtt (`main.go` lines
395-413 set only `Error` on the failure paths), and a failed fetch reports
zero status/body-length/body-size while `Redirects` holds exactly the
`Location` chain accumulated before the failure (`main.go` lines 429-454:
the status/body fields are written only after a successful body read). -/
theorem c7_error_zero_fields :
    (∀ (env : PingEnv) (url : String), (pingUrl env url).Error ≠ none →
       (pingUrl env url).PacketsSent = 0 ∧ (pingUrl env url).PacketsRecv = 0 ∧
       (pingUrl env url).PacketLoss = 0 ∧ (pingUrl env url).AvgRtt = 0)
    ∧ (∀ (env : FetchEnv) (fuel : Nat) (url : String) (r : FetchResult),
        fetchData env fuel url = some r → r.Error ≠ none →
        r.StatusCode = 0 ∧ r.BodyLength = 0 ∧ r.BodySize = 0 ∧
        r.Redirects = locsFromUrl env fuel url) := by
  constructor
  · intro env url herr
    rcases h1 : env.newPingerErr (extractHostname url) with _ | e
    · rcases h2 : env.runErr (extractHostname url) with _ | e
      · exact absurd (by simp [pingUrl, h1, h2]) herr
      · simp [pingUrl, h1, h2]
    · simp [pingUrl, h1]
  · intro env fuel url r h herr
    simp only [fetchData, fetchDataT] at h
    rcases hget : env.get url with e | resp
    · rw [hget] at h
      simp only [Option.map] at h
      cases Option.some.inj h
      exact ⟨rfl, rfl, rfl, by simp [locsFromUrl, hget]⟩
    · rw [hget] at h
      simp only [Option.map] at h
      cases hloop : fetchLoop env fuel
          { URL := url, StatusCode := 0, BodyLength := 0, BodySize := 0,
            Error := none, Redirects := [] } resp 1 with
      | none => rw [hloop] at h; exact absurd h (by simp)
      | some t =>
        obtain ⟨r0, o, c⟩ := t
        rw [hloop] at h
        simp only at h
        cases Option.some.inj h
        have hz := fetchLoop_error_fields env fuel _ resp 1 r o c rfl hloop herr
        have hr := fetchLoop_redirects env fuel _ resp 1 r o c hloop
        refine ⟨hz.1, hz.2.1, hz.2.2, ?_⟩
        rw [hr]
        simp [locsFromUrl, hget]

/-- Ping oracle whose probe construction fails for one hostname. -/
def c7PingEnv : PingEnv :=
  { newPingerErr := fun h => if h = "invalid.example" then some "invalid host" else none
    runErr := fun _ => none
    stats := fun _ => { PacketsSent := 3, PacketsRecv := 3, PacketLoss := 0, AvgRtt := 1 } }

/-- Fetch oracle whose single hop redirects to a dead URL. -/
def c7FetchEnv : FetchEnv :=
  { get := fun u =>
      if u = "http://first.example" then
        .ok { StatusCode := 301, Location := some "http://dead.example", Body := .ok "x" }
      else .error "connection refused" }

/-- Witness for C7: a failed probe construction and a GET failure at the
first redirect hop, both with all-zero measurement fields and (for the
fetch) the accumulated redirect recorded. -/
theorem c7_witness :
    ((pingUrl c7PingEnv "https://invalid.example").PacketsSent = 0 ∧
     (pingUrl c7PingEnv "https://invalid.example").PacketsRecv = 0 ∧
     (pingUrl c7PingEnv "https://invalid.example").PacketLoss = 0 ∧
     (pingUrl c7PingEnv "https://invalid.example").AvgRtt = 0) ∧
    ({ URL := "http://first.example", StatusCode := 0, BodyLength := 0,
       BodySize := 0, Error := some "connection refused",
       Redirects := ["http://dead.example"] : FetchResult }.StatusCode = 0 ∧
     ({ URL := "http://first.example", StatusCode := 0, BodyLength := 0,
        BodySize := 0, Error := some "connection refused",
        Redirects := ["http://dead.example"] : FetchResult }.BodyLength = 0 ∧
      ({ URL := "http://first.example", StatusCode := 0, BodyLength := 0,
         BodySize := 0, Error := some "connection refused",
         Redirects := ["http://dead.example"] : FetchResult }.BodySize = 0 ∧
       ({ URL := "http://first.example", StatusCode := 0, BodyLength := 0,
          BodySize := 0, Error := some "connection refused",
          Redirects := ["http://dead.example"] : FetchResult }.Redirects =
         locsFromUrl c7FetchEnv 2 "http://first.example")))) :=
  ⟨c7_error_zero_fields.1 c7PingEnv "https://invalid.example" (by decide),
   c7_error_zero_fields.2 c7FetchEnv 2 "http://first.example" _ (by decide) (by decide)⟩

/-! ## C9: non-2xx final statuses are not failures -/

/-- C9.  A final response whose status is neither 301 nor 302 — for
example 404 or 500 — is not treated as a failure: when its body reads
successfully, the outcome carries a nil error, that status code, and the
body-derived lengths (`main.go` lines 429-461: only GET failures and
body-read failures set `Error`). -/
theorem c9_non_redirect_is_success
    (env : FetchEnv) (fuel : Nat) (url : String) (resp : HttpResponse)
    (body : String)
    (hget : env.get url = .ok resp)
    (h1 : resp.StatusCode ≠ 301) (h2 : resp.StatusCode ≠ 302)
    (hbody : resp.Body = .ok body) :
    fetchData env (fuel + 1) url = some
      { URL := url, StatusCode := resp.StatusCode, BodyLength := body.length,
        BodySize := (body.length : ℚ) / 1024 / 1024, Error := none,
        Redirects := [] } := by
  have hst : ¬ (resp.StatusCode = 301 ∨ resp.StatusCode = 302) := by
    rintro (h | h)
    exacts [h1 h, h2 h]
  simp only [fetchData, fetchDataT, hget, fetchLoop, if_neg hst, hbody, Option.map]

/-- Oracle serving a plain 404 with a readable body. -/
def c9env : FetchEnv :=
  { get := fun u =>
      if u = "http://missing.example" then
        .ok { StatusCode := 404, Location := none, Body := .ok "oops" }
      else .error "no route" }

/-- Witness for C9 at a concrete 404 response. -/
theorem c9_witness :
    fetchData c9env 3 "http://missing.example" = some
      { URL := "http://missing.example", StatusCode := 404,
        BodyLength := "oops".length,
        BodySize := ("oops".length : ℚ) / 1024 / 1024, Error := none,
        Redirects := [] } :=
  c9_non_redirect_is_success c9env 2 "http://missing.example"
    { StatusCode := 404, Location := none, Body := .ok "oops" } "oops"
    rfl (by decide) (by decide) rfl

/-! ## C10: 301/302 without a Location header -/

/-- C10.  A 301/302 response with no `Location` header makes the loop
append the empty string to `Redirects` (`Header.Get` returns `""`) and
issue a GET of `""`; Go's `http.Get("")` always fails (no protocol
scheme), modelled by the hypothesis on the oracle, so the outcome carries
that error with the empty string still recorded (`main.go` lines
437-444). -/
theorem c10_missing_location_header
    (env : FetchEnv) (fuel : Nat) (url : String) (resp : HttpResponse)
    (e : String)
    (hget : env.get url = .ok resp)
    (hst : resp.StatusCode = 301 ∨ resp.StatusCode = 302)
    (hloc : resp.Location = none)
    (hempty : env.get "" = .error e) :
    fetchData env (fuel + 1) url = some
      { URL := url, StatusCode := 0, BodyLength := 0, BodySize := 0,
        Error := some e, Redirects := [""] } := by
  simp only [fetchData, fetchDataT, hget, fetchLoop, if_pos hst, hloc, headerGet,
    Option.getD, hempty, Option.map, List.nil_append]

/-- Oracle serving a 302 with no `Location` header; every other URL
(including the empty one) fails as Go's `http.Get` would. -/
def c10env : FetchEnv :=
  { get := fun u =>
      if u = "http://nohdr.example" then
        .ok { StatusCode := 302, Location := none, Body := .ok "x" }
      else .error "unsupported protocol scheme" }

/-- Witness for C10 at the concrete header-less 302. -/
theorem c10_witness :
    fetchData c10env 4 "http://nohdr.example" = some
      { URL := "http://nohdr.example", StatusCode := 0, BodyLength := 0,
        BodySize := 0, Error := some "unsupported protocol scheme",
        Redirects := [""] } :=
  c10_missing_location_header c10env 3 "http://nohdr.example"
    { StatusCode := 302, Location := none, Body := .ok "x" }
    "unsupported protocol scheme" rfl (Or.inr rfl) rfl rfl

/-! ## C3: response bodies on redirect chains are leaked, not closed -/

/-- Oracle for the C3 scenario: one 302 hop to a final response whose body
read fails (one of the exact error paths the claim covers). -/
def c3env : FetchEnv :=
  { get := fun u =>
      if u = "http://a.example" then
        .ok { StatusCode := 302, Location := some "http://b.example", Body := .ok "moved" }
      else if u = "http://b.example" then
        .ok { StatusCode := 200, Location := none, Body := .error "read reset" }
      else .error "no route" }

/-- C3 (refuting evaluation).  On a one-hop redirect chain the unit opens
two response bodies (ids 0 and 1) but closes only the final one (id 1):
the `defer resp.Body.Close()` on `main.go` line 447 is registered only
after the redirect loop, whose reassignment of `resp` on line 439 drops
the intermediate response without closing it.  Body 0 — the 302
response — is opened and never closed, contradicting the claim that every
opened body is released on every exit path. -/
theorem c3_intermediate_body_leaked :
    fetchDataT c3env 9 "http://a.example" = some
      ({ URL := "http://a.example", StatusCode := 0, BodyLength := 0,
         BodySize := 0, Error := some "read reset",
         Redirects := ["http://b.example"] }, 2, [1])
    ∧ (0 : Nat) ∉ ([1] : List Nat) := by
  exact ⟨rfl, by decide⟩

/-! ## C8: domain stripping -/

/-- C8 (refuting evaluation).  The claim says a literal `https://` prefix
is stripped; the code requires `len(url) > 8` strictly, so the bare-scheme
URL `https://` passes through unchanged while the spec-worded derivation
yields the empty string. -/
theorem c8_counterexample :
    extractHostname "https://" = "https://" ∧ specDomain "https://" = "" ∧
    extractHostname "https://" ≠ specDomain "https://" := by decide

/-- The `www.` stage of the code (strict-length guard) agrees with the
spec-worded stage whenever the input is not the bare string `www.`. -/
theorem wwwStage_eq (h : String) (hne : h ≠ "www.") :
    (if 4 < h.length ∧ h.take 4 = "www." then h.drop 4 else h) =
    (if h.take 4 = "www." then h.drop 4 else h) := by
  by_cases t4 : h.take 4 = "www."
  · have l4 : 4 < h.length := by
      rcases Nat.lt_or_ge 4 h.length with hl | hl
      · exact hl
      · exact absurd ((string_take_short hl).symm.trans t4) hne
    rw [if_pos ⟨l4, t4⟩, if_pos t4]
  · rw [if_neg (fun hc => t4 hc.2), if_neg t4]

/-- C8 as amended.  Domain derivation agrees with the spec-worded
stripping on every URL except the degenerate boundary inputs the strict
length guards exclude: the bare schemes `https://` and `http://`, and
URLs whose post-scheme remainder is exactly `www.`; and the claim's three
examples hold as stated. -/
theorem c8_amended :
    (∀ url : String, url ≠ "https://" → url ≠ "http://" →
       hostAfterScheme url ≠ "www." →
       extractHostname url = specDomain url)
    ∧ extractHostname "https://example.com" = "example.com"
    ∧ extractHostname "http://www.example.com" = "example.com"
    ∧ extractHostname "example.com" = "example.com" := by
  refine ⟨?_, by decide, by decide, by decide⟩
  intro url h8 h7 hw
  have hsch : hostAfterScheme url =
      (if url.take 8 = "https://" then url.drop 8
       else if url.take 7 = "http://" then url.drop 7 else url) := by
    by_cases t8 : url.take 8 = "https://"
    · have l8 : 8 < url.length := by
        rcases Nat.lt_or_ge 8 url.length with hl | hl
        · exact hl
        · exact absurd ((string_take_short hl).symm.trans t8) h8
      unfold hostAfterScheme
      rw [if_pos ⟨l8, t8⟩, if_pos t8]
    · by_cases t7 : url.take 7 = "http://"
      · have l7 : 7 < url.length := by
          rcases Nat.lt_or_ge 7 url.length with hl | hl
          · exact hl
          · exact absurd ((string_take_short hl).symm.trans t7) h7
        unfold hostAfterScheme
        rw [if_neg (fun hc => t8 hc.2), if_neg t8, if_pos ⟨l7, t7⟩, if_pos t7]
      · unfold hostAfterScheme
        rw [if_neg (fun hc => t8 hc.2), if_neg t8,
          if_neg (fun hc => t7 hc.2), if_neg t7]
  simp only [extractHostname, specDomain]
  rw [hsch]
  exact wwwStage_eq _ (hsch ▸ hw)

/-- Witness for C8's amended universal clause at a URL with both a scheme
and a `www.` prefix. -/
theorem c8_witness :
    extractHostname "https://www.example.com" = specDomain "https://www.example.com" :=
  c8_amended.1 "https://www.example.com" (by decide) (by decide) (by decide)

/-! ## C4: the ranking sorts are not stable -/

/-- A 13-result collection (in collection order) on which `sort.Slice`'s
pdqsort takes the partition path: the three error-free results tagged
`A`, `P`, `B` share `AvgRtt = 50` and are comparator-equivalent. -/
def c4input : List PingResult :=
  [okPing "u0" 40, okPing "A" 50, okPing "u2" 90, okPing "u3" 90,
   okPing "u4" 80, okPing "u5" 80, okPing "P" 50, okPing "u7" 70,
   okPing "u8" 70, okPing "u9" 10, okPing "u10" 60, okPing "u11" 70,
   okPing "B" 50]

/-- The ranked output pdqsort produces for `c4input`: correctly ordered
(descending rtt), but `P` now precedes `A` although `A` preceded `P` at
collection, and the three equal-rtt-70 results are likewise permuted. -/
def c4output : List PingResult :=
  [okPing "u2" 90, okPing "u3" 90, okPing "u4" 80, okPing "u5" 80,
   okPing "u8" 70, okPing "u11" 70, okPing "u7" 70, okPing "u10" 60,
   okPing "P" 50, okPing "A" 50, okPing "B" 50, okPing "u0" 40,
   okPing "u9" 10]

set_option maxRecDepth 100000 in
/-- C4 (refuting evaluation).  `main.go` uses `sort.Slice`, not
`sort.SliceStable`; on this 13-element collection its pdqsort reorders the
comparator-equivalent error-free results `A` and `P` (equal `AvgRtt`):
`A` arrives at index 1, `P` at index 6, yet the ranked output places `P`
(index 8) before `A` (index 9).  The comparator equivalence is witnessed
by `pingLess` rejecting both orders. -/
theorem c4_counterexample :
    sortSlice pingLess c4input = c4output ∧
    c4input.indexOf (okPing "A" 50) = 1 ∧
    c4input.indexOf (okPing "P" 50) = 6 ∧
    c4output.indexOf (okPing "P" 50) = 8 ∧
    c4output.indexOf (okPing "A" 50) = 9 ∧
    pingLess (okPing "A" 50) (okPing "P" 50) = false ∧
    pingLess (okPing "P" 50) (okPing "A" 50) = false ∧
    (okPing "A" 50).Error = none ∧ (okPing "P" 50).Error = none := by
  refine ⟨by decide!, by decide, by decide, by decide, by decide,
    by decide, by decide, rfl, rfl⟩

set_option maxRecDepth 100000 in
/-- C4 as amended.  The ranked output is a permutation of the collected
outcomes with no adjacent inversion under the comparator (the `sort.Slice`
contract, from which C2's ordering guarantees follow), but the sorts are
not stable: comparator-equivalent outcomes may lose their collection
order, as pdqsort demonstrates on `c4input` (the same algorithm backs the
fetch-result sort). -/
theorem c4_amended :
    sortSlice pingLess c4input = c4output ∧
    sortSliceSpec pingLess c4input c4output ∧
    c4input.indexOf (okPing "A" 50) < c4input.indexOf (okPing "P" 50) ∧
    c4output.indexOf (okPing "P" 50) < c4output.indexOf (okPing "A" 50) := by
  refine ⟨by decide!, ⟨by decide, by decide⟩, by decide, by decide⟩
